import Mathlib

/-!
Verification of the kavachq risk-detection and confidence-scoring pipeline.

This file gives a shallow embedding of the core logic of the repository:
  * `src/lib/confidenceScoring.ts` (confidence scoring and action mapping),
  * `src/lib/locationMemory.ts`    (location-based false-alarm memory),
  * `src/lib/rideMonitor.ts`       (risk-event debouncing),
  * `src/lib/weatherService.ts`    (heat-index calculation),
  * the voice-confirmation module (keyword lexicons, fuzzy matching,
    classification, and the confirmation listener state machine).

Conventions of the embedding:
  * JavaScript numbers are modelled as `ℚ` (exact rationals); quantities the
    source keeps integral (counts, confidence values, rounded results) are
    modelled as `ℤ`/`ℕ`.
  * `Math.round(x)` is modelled as `jsRound x = ⌊x + 1/2⌋`, which matches the
    ECMAScript definition (round half toward +∞) on all rationals.
  * Impure reads (`Date.now()`, `new Date().getHours()`, the `localStorage`
    backed memory store) become explicit parameters.
  * Strings are modelled as `List Char`; `toLowerCase` is modelled
    characterwise by `Char.toLower` and `trim` drops leading/trailing
    whitespace characters.
-/

/-- ECMAScript `Math.round`: round half toward positive infinity. -/
def jsRound (q : ℚ) : ℤ := ⌊q + 1/2⌋

/-- Clamp an integer into `[0, 100]`; the source writes
`Math.min(100, Math.max(0, x))`. -/
def clamp100 (x : ℤ) : ℤ := min 100 (max 0 x)

/-! ## Data model (`rideMonitor.ts`, `confidenceScoring.ts`) -/

/-- `RiskEvent['type']` from `rideMonitor.ts`. -/
inductive RiskType
  | speed_warning | heat_warning | unsafe_zone | sudden_stop
  | fall_detected | long_idle | wellness_check
deriving DecidableEq, Repr

/-- `RiskEvent['severity']` from `rideMonitor.ts`. -/
inductive Severity
  | low | medium | high | critical
deriving DecidableEq, Repr

/-- `RiskEvent` from `rideMonitor.ts`. -/
structure RiskEvent where
  type : RiskType
  severity : Severity
  timestamp : ℤ
  location : Option (ℚ × ℚ) := none
  message : Option String := none
deriving DecidableEq, Repr

/-- `ConfidenceFactors` from `confidenceScoring.ts`.  Every factor the source
computes is an integer (the only non-integral intermediates pass through
`Math.round`), so the fields are `ℤ`. -/
structure ConfidenceFactors where
  sensorIntensity : ℤ
  patternDuration : ℤ
  locationAdjustment : ℤ
  timeOfDay : ℤ
  speedContext : ℤ
  behaviorConsistency : ℤ
deriving DecidableEq, Repr

/-- `ScoredRiskEvent` from `confidenceScoring.ts`. -/
structure ScoredRiskEvent extends RiskEvent where
  confidence : ℤ
  confidenceFactors : ConfidenceFactors
  requiresConfirmation : Bool
  locationCellId : Option (ℤ × ℤ) := none
deriving DecidableEq, Repr

/-- `CONFIDENCE_THRESHOLDS` from `confidenceScoring.ts`. -/
structure ConfidenceThresholds where
  SUPPRESS : ℤ
  CONFIRM_REQUIRED : ℤ
  IMMEDIATE_ALERT : ℤ
  EMERGENCY_AUTO : ℤ

def CONFIDENCE_THRESHOLDS : ConfidenceThresholds :=
  { SUPPRESS := 40, CONFIRM_REQUIRED := 70, IMMEDIATE_ALERT := 70, EMERGENCY_AUTO := 85 }

/-! ## Location memory (`locationMemory.ts`) -/

/-- `LocationMemory['sensorSignature']`. -/
structure SensorSignature where
  avgAccelVariance : ℚ
  avgGyroVariance : ℚ
  eventTypes : List String
deriving DecidableEq, Repr

/-- `LocationMemory` from `locationMemory.ts`.  The cell id string
`"${latCell},${lngCell}"` (coordinates printed with 4 decimal places) is in
bijection with the pair of scaled integers `(lat·10⁴, lng·10⁴)` rounded per
`Number.prototype.toFixed`, so cell ids are modelled as `ℤ × ℤ`. -/
structure LocationMemory where
  cellId : ℤ × ℤ
  falseAlarmCount : ℕ
  trueAlarmCount : ℕ
  lastTriggered : ℤ
  sensorSignature : Option SensorSignature
  synced : Bool
deriving DecidableEq, Repr

/-- `SensorData` from `locationMemory.ts`. -/
structure SensorData where
  accelVariance : Option ℚ := none
  gyroVariance : Option ℚ := none
  speed : Option ℚ := none
  eventType : String
deriving DecidableEq, Repr

/-- `Number.prototype.toFixed(4)` as a scaled integer: the integer `n`
minimizing `|n/10⁴ − q|`, larger `n` on ties (ECMAScript `toFixed`). -/
def toFixed4 (q : ℚ) : ℤ := ⌊q * 10000 + 1/2⌋

/-- `getLocationCellId` from `locationMemory.ts` (see `LocationMemory` for the
string-to-pair bijection). -/
def getLocationCellId (lat lng : ℚ) : ℤ × ℤ := (toFixed4 lat, toFixed4 lng)

/-- The `localStorage`-backed map from cell ids to memories
(`getStoredMemories`/`saveMemories` pairs kept abstract as a total lookup). -/
def MemStore : Type := ℤ × ℤ → Option LocationMemory

/-- Point update of the memory map (`memories.set(cellId, updated)`). -/
def setMem (st : MemStore) (k : ℤ × ℤ) (m : LocationMemory) : MemStore :=
  fun k' => if k' = k then some m else st k'

/-- `getLocationConfidenceAdjustment` from `locationMemory.ts`. -/
def getLocationConfidenceAdjustment (st : MemStore) (lat lng : ℚ) : ℤ :=
  match st (getLocationCellId lat lng) with
  | none => 0
  | some memory =>
    let totalEvents := memory.falseAlarmCount + memory.trueAlarmCount
    if totalEvents = 0 then 0
    else
      -- falseRatio = falseAlarmCount / totalEvents
      let fr : ℚ := (memory.falseAlarmCount : ℚ) / (totalEvents : ℚ)
      if totalEvents < 3 then -(jsRound (fr * 10))
      else -(jsRound (fr * 30))

/-- `updateSensorSignature` from `locationMemory.ts`.  `[...new Set(l)]` keeps
the first occurrence of each element in order; `.slice(-10)` keeps the last
ten elements. -/
def updateSensorSignature (existing : Option SensorSignature) (newData : SensorData) :
    SensorSignature :=
  match existing with
  | none =>
    { avgAccelVariance := newData.accelVariance.getD 0
      avgGyroVariance := newData.gyroVariance.getD 0
      eventTypes := [newData.eventType] }
  | some e =>
    let count : ℕ := e.eventTypes.length
    let merged := (e.eventTypes ++ [newData.eventType]).eraseDups
    { avgAccelVariance := (e.avgAccelVariance * count + newData.accelVariance.getD 0) / (count + 1)
      avgGyroVariance := (e.avgGyroVariance * count + newData.gyroVariance.getD 0) / (count + 1)
      eventTypes := merged.drop (merged.length - 10) }

/-- `recordFalseAlarm` from `locationMemory.ts` (the local-store transition;
the fire-and-forget cloud sync does not touch counters). -/
def recordFalseAlarm (lat lng : ℚ) (sensorData : Option SensorData) (now : ℤ)
    (st : MemStore) : MemStore :=
  let cellId := getLocationCellId lat lng
  let existing := st cellId
  let updated : LocationMemory :=
    { cellId := cellId
      falseAlarmCount := (existing.map (·.falseAlarmCount)).getD 0 + 1
      trueAlarmCount := (existing.map (·.trueAlarmCount)).getD 0
      lastTriggered := now
      sensorSignature :=
        match sensorData with
        | some sd => some (updateSensorSignature (existing.bind (·.sensorSignature)) sd)
        | none => existing.bind (·.sensorSignature)
      synced := false }
  setMem st cellId updated

/-- `recordTrueAlert` from `locationMemory.ts`. -/
def recordTrueAlert (lat lng : ℚ) (_sensorData : Option SensorData) (now : ℤ)
    (st : MemStore) : MemStore :=
  let cellId := getLocationCellId lat lng
  let existing := st cellId
  let updated : LocationMemory :=
    { cellId := cellId
      falseAlarmCount := (existing.map (·.falseAlarmCount)).getD 0
      trueAlarmCount := (existing.map (·.trueAlarmCount)).getD 0 + 1
      lastTriggered := now
      sensorSignature := existing.bind (·.sensorSignature)
      synced := false }
  setMem st cellId updated

/-- A row of the remote `location_memories` table as consumed by
`loadMemoriesFromCloud` (`|| 0` turns missing counters into 0). -/
structure CloudRow where
  cellId : ℤ × ℤ
  falseAlarmCount : Option ℕ
  trueAlarmCount : Option ℕ
  updatedAt : ℤ
  sensorSignature : Option SensorSignature
deriving DecidableEq, Repr

/-- One iteration of the merge loop in `loadMemoriesFromCloud`:
"Merge: keep higher counts". -/
def mergeRow (st : MemStore) (row : CloudRow) : MemStore :=
  let existing := st row.cellId
  setMem st row.cellId
    { cellId := row.cellId
      falseAlarmCount := max ((existing.map (·.falseAlarmCount)).getD 0) (row.falseAlarmCount.getD 0)
      trueAlarmCount := max ((existing.map (·.trueAlarmCount)).getD 0) (row.trueAlarmCount.getD 0)
      lastTriggered :=
        -- existing?.lastTriggered || new Date(row.updated_at).getTime()
        match existing with
        | some m => if m.lastTriggered = 0 then row.updatedAt else m.lastTriggered
        | none => row.updatedAt
      sensorSignature :=
        -- row.sensor_signature || existing?.sensorSignature
        match row.sensorSignature with
        | some s => some s
        | none => existing.bind (·.sensorSignature)
      synced := true }

/-- `loadMemoriesFromCloud` from `locationMemory.ts`, as the fold of the merge
loop over the fetched rows. -/
def loadMemoriesFromCloud (rows : List CloudRow) (st : MemStore) : MemStore :=
  rows.foldl mergeRow st

/-- The store operations claim C6 ranges over. -/
inductive MemOp
  | falseAlarm (lat lng : ℚ) (sd : Option SensorData) (now : ℤ)
  | trueAlert (lat lng : ℚ) (sd : Option SensorData) (now : ℤ)
  | load (rows : List CloudRow)

/-- Apply one store operation. -/
def applyMemOp (st : MemStore) : MemOp → MemStore
  | .falseAlarm lat lng sd now => recordFalseAlarm lat lng sd now st
  | .trueAlert lat lng sd now => recordTrueAlert lat lng sd now st
  | .load rows => loadMemoriesFromCloud rows st

/-- Apply a sequence of store operations, oldest first. -/
def applyMemOps (st : MemStore) (ops : List MemOp) : MemStore :=
  ops.foldl applyMemOp st

/-! ## Confidence scoring (`confidenceScoring.ts`) -/

/-- The `context` argument of `calculateConfidence`. -/
structure ScoreContext where
  currentSpeed : ℚ
  accelerationVariance : ℚ
  rideStartTime : ℤ
  recentEvents : List RiskEvent
  sensorIntensity : Option ℚ := none

/-- `calculateConfidence` from `confidenceScoring.ts`.  The impure reads
become parameters: `hour` is `new Date().getHours()`, `now` is `Date.now()`,
and `st` is the `localStorage` memory map read by
`getLocationConfidenceAdjustment`. -/
def calculateConfidence (event : RiskEvent) (context : ScoreContext)
    (hour : ℕ) (now : ℤ) (st : MemStore) : ScoredRiskEvent :=
  -- 1. Base score from event severity
  let base : ℤ :=
    match event.severity with
    | .critical => 35
    | .high => 25
    | .medium => 15
    | .low => 8
  -- Adjust based on provided sensor intensity (overrides the base)
  let base : ℤ :=
    match context.sensorIntensity with
    | some si => min 40 (jsRound (si * (4/10)))
    | none => base
  -- 2. Event type specific adjustments
  let sensorIntensityF : ℤ :=
    if event.type = .fall_detected then min 40 (base + 10)
    else if event.type = .sudden_stop then min 40 (base + 5)
    else if event.type = .speed_warning ∨ event.type = .heat_warning then max 10 (base - 5)
    else base
  -- 3. Pattern duration: similar events in the last 30 s
  let recentSimilar := context.recentEvents.filter
    (fun e => decide (e.type = event.type ∧ event.timestamp - e.timestamp < 30000))
  let patternDuration : ℤ :=
    if 0 < recentSimilar.length then min 20 ((recentSimilar.length : ℤ) * 7) else 0
  -- 4. Location adjustment
  let locationAdjustment : ℤ :=
    match event.location with
    | some (lat, lng) => getLocationConfidenceAdjustment st lat lng
    | none => 0
  -- 5. Time of day
  let timeOfDay : ℤ :=
    if 22 ≤ hour ∨ hour < 5 then 10
    else if 19 ≤ hour ∨ hour < 7 then 5
    else 0
  -- 6. Speed context
  let speedContext : ℤ :=
    if 40 < context.currentSpeed then 15
    else if 20 < context.currentSpeed then 10
    else if 5 < context.currentSpeed then 5
    else 0
  -- 7. Behavior consistency
  let rideDuration : ℚ := ((now - context.rideStartTime : ℤ) : ℚ) / 1000 / 60
  let eventsPerMinute : ℚ := (context.recentEvents.length : ℚ) / max 1 rideDuration
  let behaviorConsistency : ℤ :=
    if 2 < eventsPerMinute then -20
    else if 1 < eventsPerMinute then -10
    else 0
  let factors : ConfidenceFactors :=
    { sensorIntensity := sensorIntensityF
      patternDuration := patternDuration
      locationAdjustment := locationAdjustment
      timeOfDay := timeOfDay
      speedContext := speedContext
      behaviorConsistency := behaviorConsistency }
  let confidence : ℤ := clamp100
    (sensorIntensityF + patternDuration + locationAdjustment + timeOfDay +
      speedContext + behaviorConsistency)
  let requiresConfirmation : Bool :=
    decide (CONFIDENCE_THRESHOLDS.SUPPRESS ≤ confidence) &&
    decide (confidence < CONFIDENCE_THRESHOLDS.IMMEDIATE_ALERT)
  { event with
    confidence := confidence
    confidenceFactors := factors
    requiresConfirmation := requiresConfirmation
    locationCellId := event.location.map (fun p => getLocationCellId p.1 p.2) }

/-- Result type of `getConfidenceAction`. -/
inductive RiskAction
  | suppress | confirm | alert | emergency
deriving DecidableEq, Repr

/-- `getConfidenceAction` from `confidenceScoring.ts`. -/
def getConfidenceAction (confidence : ℤ) : RiskAction :=
  if confidence < CONFIDENCE_THRESHOLDS.SUPPRESS then .suppress
  else if CONFIDENCE_THRESHOLDS.EMERGENCY_AUTO ≤ confidence then .emergency
  else if CONFIDENCE_THRESHOLDS.IMMEDIATE_ALERT ≤ confidence then .alert
  else .confirm

/-- `shouldAutoTriggerEmergency` from `confidenceScoring.ts`. -/
def shouldAutoTriggerEmergency (event : ScoredRiskEvent) : Bool :=
  decide (event.type = RiskType.fall_detected ∧
      CONFIDENCE_THRESHOLDS.EMERGENCY_AUTO ≤ event.confidence) ||
  decide (event.severity = Severity.critical ∧ 90 ≤ event.confidence)

/-! ## Ride monitor debounce (`rideMonitor.ts`) -/

/-- `RideState` from `rideMonitor.ts` (positions as lat/lng pairs). -/
structure RideState where
  isActive : Bool
  startTime : Option ℤ
  lastPosition : Option (ℚ × ℚ)
  lastSpeed : ℚ
  idleTime : ℚ
  distanceTraveled : ℚ
  riskEvents : List RiskEvent
deriving DecidableEq, Repr

/-- The side effects `triggerRiskEvent` can perform besides mutating
`state.riskEvents`: the voice warning, the severity-based vibration, the
delayed automatic emergency for falls, and the hand-off to `onRiskEvent`. -/
structure TriggerEffects where
  spoke : Bool
  vibratedEmergency : Bool
  vibratedAlert : Bool
  scheduledAutoEmergency : Bool
  handedOff : Bool
deriving DecidableEq, Repr

/-- The no-effects record (the early-return path of `triggerRiskEvent`). -/
def TriggerEffects.none : TriggerEffects :=
  { spoke := false, vibratedEmergency := false, vibratedAlert := false
    scheduledAutoEmergency := false, handedOff := false }

/-- `RideMonitor.triggerRiskEvent` from `rideMonitor.ts`; `now` is the
`Date.now()` read in the debounce test. -/
def triggerRiskEvent (now : ℤ) (event : RiskEvent) (st : RideState) :
    RideState × TriggerEffects :=
  let recentSameEvent := st.riskEvents.find?
    (fun e => decide (e.type = event.type ∧ now - e.timestamp < 60000))
  match recentSameEvent with
  | some _ => (st, TriggerEffects.none)
  | none =>
    ({ st with riskEvents := st.riskEvents ++ [event] },
     { spoke := true
       vibratedEmergency := event.severity = Severity.critical
       vibratedAlert := ¬(event.severity = Severity.critical)
       scheduledAutoEmergency :=
         decide (event.severity = Severity.critical) &&
         decide (event.type = RiskType.fall_detected)
       handedOff := true })

/-! ## Heat index (`weatherService.ts`) -/

/-- `WeatherService.calculateHeatIndex` from `weatherService.ts`.  The final
`Math.round(hi * 10) / 10` keeps one decimal place. -/
def calculateHeatIndex (tempC humidity : ℚ) : ℚ :=
  if tempC < 27 then tempC
  else
    let t := tempC
    let rh := humidity
    let hi : ℚ :=
      -8.784695 +
      1.61139411 * t +
      2.338549 * rh -
      0.14611605 * t * rh -
      0.012308094 * t * t -
      0.016424828 * rh * rh +
      0.002211732 * t * t * rh +
      0.00072546 * t * rh * rh -
      0.000003582 * t * t * rh * rh
    (jsRound (hi * 10) : ℚ) / 10

/-! ## Voice confirmation listener (claim C1)

Embedding of `VoiceConfirmationListener` (voice confirmation module).  The
mutable fields of the class become a state record; the callbacks the
listener can fire into its `options` object (`onResult`, `onListening`)
become an output list.  `handleResult` is modelled exactly as written in the
source: it first calls `this.stop()` — which clears the timeout, fires
`options?.onListening?.(false)` and then sets `this.options = null` — and
only afterwards evaluates `this.options?.onResult(...)`. -/

/-- `ConfirmationResult` from the voice confirmation module. -/
inductive ConfResult
  | ok | danger | timeout | cancelled
deriving DecidableEq, Repr

/-- The callbacks a listener call can fire into the caller's options. -/
inductive ListenerCallback
  | onResult (r : ConfResult) (responseTimeMs : ℤ)
  | onListening (b : Bool)
deriving DecidableEq, Repr

/-- The mutable fields of `VoiceConfirmationListener`: `cancelled`,
`timeoutId !== null`, `options !== null`, `isListening`, `startTime`. -/
structure ListenerState where
  cancelled : Bool
  timeoutSet : Bool
  hasOpts : Bool
  isListening : Bool
  startTime : ℤ
deriving DecidableEq, Repr

/-- `VoiceConfirmationListener.stop`. -/
def listenerStop (s : ListenerState) : ListenerState × List ListenerCallback :=
  ({ cancelled := true, timeoutSet := false, hasOpts := false
     isListening := false, startTime := s.startTime },
   if s.hasOpts then [ListenerCallback.onListening false] else [])

/-- `VoiceConfirmationListener.handleResult`; `now` is the `Date.now()` read
for the response time. -/
def listenerHandleResult (result : ConfResult) (now : ℤ) (s : ListenerState) :
    ListenerState × List ListenerCallback :=
  if s.cancelled then (s, [])
  else
    let responseTime := now - s.startTime
    let stopped := listenerStop s
    -- vibrateConfirm / vibrateAlert fire here for ok / danger (no callback)
    (stopped.1,
     stopped.2 ++
       (if stopped.1.hasOpts then [ListenerCallback.onResult result responseTime] else []))

/-- `VoiceConfirmationListener.start` on the main path (speech recognition
available): stores the options, clears `cancelled`, records the start time
and arms the timeout. -/
def listenerStart (now : ℤ) (s : ListenerState) : ListenerState × List ListenerCallback :=
  ({ cancelled := false, timeoutSet := true, hasOpts := true
     isListening := s.isListening, startTime := now }, [])

/-- The armed `setTimeout` callback firing at `now`:
`this.handleResult('timeout')`. -/
def listenerTimeoutFires (now : ℤ) (s : ListenerState) :
    ListenerState × List ListenerCallback :=
  listenerHandleResult ConfResult.timeout now s

/-- A fresh listener as constructed (`cancelled = false`, no timer, no
options, not listening). -/
def freshListener : ListenerState :=
  { cancelled := false, timeoutSet := false, hasOpts := false
    isListening := false, startTime := 0 }

/-- Count deliveries of `onResult` in an output trace. -/
def countOnResult (out : List ListenerCallback) : ℕ :=
  (out.filter fun c =>
    match c with
    | ListenerCallback.onResult _ _ => true
    | _ => false).length


/-! ## Voice keyword matching (claims C8, C10)

Embedding of the keyword lexicons, `levenshteinDistance`, `fuzzyMatch` and
`classifyInput` from the voice confirmation module.  Strings are lists of
characters; `toLowerCase` acts characterwise (`Char.toLower`, exact for the
ASCII lexicons involved) and `trim` strips leading/trailing whitespace. -/

/-- One row step of the Levenshtein recurrence: given `f = lev xs`
(distances from the tail `xs`), the distances from `x :: xs`.  `tailLen` is
`xs.length`. -/
def levCons (f : List Char → ℕ) (x : Char) (tailLen : ℕ) : List Char → ℕ
  | [] => tailLen + 1
  | y :: ys =>
    if x = y then f ys
    else 1 + min (f ys) (min (levCons f x tailLen ys) (f (y :: ys)))

/-- `levenshteinDistance` from the voice confirmation module.  The source
fills the textbook dynamic-programming matrix with base row `m[0][j] = j`,
base column `m[i][0] = i` and step
`m[i][j] = if chars equal then m[i-1][j-1] else 1 + min(diag, left, up)`,
returning `m[b.length][a.length]`; `lev` is that same recurrence evaluated
recursively on the two strings (structurally, so that it also evaluates by
kernel reduction). -/
def lev : List Char → List Char → ℕ
  | [], b => b.length
  | x :: xs, b => levCons (lev xs) x xs.length b

/-- `String.prototype.trim`, left half: drop leading whitespace. -/
def trimLeft (l : List Char) : List Char := l.dropWhile (·.isWhitespace)

/-- `String.prototype.trim`, right half: drop trailing whitespace. -/
def trimRight (l : List Char) : List Char := (trimLeft l.reverse).reverse

/-- `String.prototype.trim`: drop whitespace at both ends. -/
def trim (l : List Char) : List Char := trimRight (trimLeft l)

/-- `input.toLowerCase().trim()` — the `normalized` value in `fuzzyMatch`. -/
def normalizeInput (input : List Char) : List Char :=
  trim (input.map Char.toLower)

/-- `String.prototype.includes`: substring containment. -/
def containsSub : List Char → List Char → Bool
  | [], needle => needle.isEmpty
  | l@(_ :: t), needle => needle.isPrefixOf l || containsSub t needle

/-- `normalized.split(/\s+/)`: maximal runs of non-whitespace characters
(the normalized input is already trimmed, so the JS edge case of a leading
empty field cannot arise for non-empty words). -/
def splitWsAux : List Char → List Char → List (List Char)
  | [], acc => if acc.isEmpty then [] else [acc.reverse]
  | c :: rest, acc =>
    if c.isWhitespace then
      if acc.isEmpty then splitWsAux rest [] else acc.reverse :: splitWsAux rest []
    else splitWsAux rest (c :: acc)

/-- Split on whitespace runs. -/
def splitWs (l : List Char) : List (List Char) := splitWsAux l []

/-- The apostrophe character (U+0027). -/
def apos : Char := Char.ofNat 39

/-- `OK_KEYWORDS['en-IN']`. -/
def okEn : List (List Char) :=
  ["okay".toList, "ok".toList, "fine".toList, "good".toList, "safe".toList,
   "alright".toList, ('i' :: apos :: "m fine".toList), "im fine".toList,
   "all good".toList, "no problem".toList, "yes".toList]

/-- `OK_KEYWORDS['hi-IN']`. -/
def okHi : List (List Char) :=
  ["theek".toList, "theek hai".toList, "sahi".toList, "accha".toList,
   "acha".toList, "mast".toList, "okay".toList, "thik".toList,
   "haan".toList, "ha".toList]

/-- `OK_KEYWORDS['ta-IN']`. -/
def okTa : List (List Char) :=
  ["nalla".toList, "sari".toList, "paravala".toList, "okay".toList,
   "nandraga".toList, "nallam".toList, "aamaa".toList, "aama".toList]

/-- `DANGER_KEYWORDS['en-IN']`. -/
def dangerEn : List (List Char) :=
  ["help".toList, "danger".toList, "emergency".toList, "accident".toList,
   "stop".toList, "call".toList, "hurt".toList, "injured".toList,
   "no".toList, "not okay".toList, "bad".toList]

/-- `DANGER_KEYWORDS['hi-IN']`. -/
def dangerHi : List (List Char) :=
  ["madad".toList, "bachao".toList, "khatara".toList, "khatre".toList,
   "emergency".toList, "durghatna".toList, "ruko".toList, "nahi".toList,
   "na".toList]

/-- `DANGER_KEYWORDS['ta-IN']`. -/
def dangerTa : List (List Char) :=
  ["udavi".toList, "aabathu".toList, "apatthu".toList, "emergency".toList,
   "accident".toList, "nillu".toList, "illa".toList, "vendam".toList]

/-- `OK_KEYWORDS[lang] || []`. -/
def OK_KEYWORDS (lang : String) : List (List Char) :=
  if lang = "en-IN" then okEn
  else if lang = "hi-IN" then okHi
  else if lang = "ta-IN" then okTa
  else []

/-- `DANGER_KEYWORDS[lang] || []`. -/
def DANGER_KEYWORDS (lang : String) : List (List Char) :=
  if lang = "en-IN" then dangerEn
  else if lang = "hi-IN" then dangerHi
  else if lang = "ta-IN" then dangerTa
  else []

/-- The six lexicon lists (for quantifying over "the lexicons"). -/
def ALL_LEXICONS : List (List (List Char)) :=
  [okEn, okHi, okTa, dangerEn, dangerHi, dangerTa]

/-- `fuzzyMatch` from the voice confirmation module.  The source loop
returns `true` at the first keyword passing any of the four checks (exact
match, substring match for keywords of length ≤ 4, edit distance ≤ 1 for
longer keywords, per-word exact-or-distance-1 match) and `false` only after
the whole loop; since the checks have no side effects this is `List.any` of
their disjunction. -/
def fuzzyMatch (input : List Char) (keywords : List (List Char)) : Bool :=
  keywords.any fun keyword =>
    normalizeInput input == keyword ||
    (decide (keyword.length ≤ 4) && containsSub (normalizeInput input) keyword) ||
    (decide (4 < keyword.length) && decide (lev (normalizeInput input) keyword ≤ 1)) ||
    (splitWs (normalizeInput input)).any
      (fun w => w == keyword || decide (lev w keyword ≤ 1))

/-- Result type of `classifyInput` (`'ok' | 'danger' | null` becomes
`Option OkDanger`). -/
inductive OkDanger
  | ok | danger
deriving DecidableEq, Repr

/-- The language loop of `classifyInput`: danger keywords are checked before
ok keywords for each language in turn. -/
def classifyScan (text : List Char) : List String → Option OkDanger
  | [] => none
  | lang :: rest =>
    if fuzzyMatch text (DANGER_KEYWORDS lang) then some OkDanger.danger
    else if fuzzyMatch text (OK_KEYWORDS lang) then some OkDanger.ok
    else classifyScan text rest

/-- `classifyInput` from the voice confirmation module: the given language
first, then the fixed fallback order English, Hindi, Tamil. -/
def classifyInput (text : List Char) (language : String) : Option OkDanger :=
  classifyScan text [language, "en-IN", "hi-IN", "ta-IN"]

/-- `a` and `b` differ by at most one of the three Levenshtein edits
(equality, one extra character in `a`, one missing character in `a`, or one
substitution). -/
def Near (a b : List Char) : Prop :=
  a = b ∨
  (∃ p c s, a = p ++ c :: s ∧ b = p ++ s) ∨
  (∃ p c s, a = p ++ s ∧ b = p ++ c :: s) ∨
  (∃ p c d s, a = p ++ c :: s ∧ b = p ++ d :: s)

/-- The first two characters exist and are not whitespace. -/
def frontOk : List Char → Bool
  | c1 :: c2 :: _ => !c1.isWhitespace && !c2.isWhitespace
  | _ => false

/-- The last two characters exist and are not whitespace. -/
def backOk (l : List Char) : Bool := frontOk l.reverse

/-! ## Claim C2: action thresholds -/

/-- C2: for every integer confidence `c`, `getConfidenceAction c` is
`suppress` iff `c < 40`, `confirm` iff `40 ≤ c < 70`, `alert` iff
`70 ≤ c < 85`, and `emergency` iff `85 ≤ c`. -/
theorem c2_confidence_action_bands (c : ℤ) :
    (getConfidenceAction c = RiskAction.suppress ↔ c < 40) ∧
    (getConfidenceAction c = RiskAction.confirm ↔ 40 ≤ c ∧ c < 70) ∧
    (getConfidenceAction c = RiskAction.alert ↔ 70 ≤ c ∧ c < 85) ∧
    (getConfidenceAction c = RiskAction.emergency ↔ 85 ≤ c) := by
  unfold getConfidenceAction CONFIDENCE_THRESHOLDS
  split_ifs <;> simp_all <;> omega

/-! ## Claim C4: automatic emergency trigger -/

/-- C4: `shouldAutoTriggerEmergency e` is true exactly when `e` is a
`fall_detected` event with confidence ≥ 85, or a `critical`-severity event
with confidence ≥ 90; in particular every `fall_detected` event with
confidence ≥ 85 takes the automatic emergency path. -/
theorem c4_auto_emergency_iff (e : ScoredRiskEvent) :
    shouldAutoTriggerEmergency e = true ↔
      (e.type = RiskType.fall_detected ∧ 85 ≤ e.confidence) ∨
      (e.severity = Severity.critical ∧ 90 ≤ e.confidence) := by
  unfold shouldAutoTriggerEmergency CONFIDENCE_THRESHOLDS
  simp

/-! ## Claim C3: confidence is always an integer in [0, 100] -/

/-- Bounds of the final clamp in `calculateConfidence`. -/
theorem clamp100_bounds (x : ℤ) : 0 ≤ clamp100 x ∧ clamp100 x ≤ 100 := by
  unfold clamp100
  omega

/-- C3: for every risk event and every context (any speed, variance, ride
start time, history and optional sensor intensity, however large or
negative), the confidence computed by `calculateConfidence` is an integer
(the result type is `ℤ` because every factor passes through integer
arithmetic or `Math.round`) lying in `[0, 100]`. -/
theorem c3_confidence_in_range (event : RiskEvent) (context : ScoreContext)
    (hour : ℕ) (now : ℤ) (st : MemStore) :
    0 ≤ (calculateConfidence event context hour now st).confidence ∧
      (calculateConfidence event context hour now st).confidence ≤ 100 := by
  obtain ⟨x, hx⟩ :
      ∃ x, (calculateConfidence event context hour now st).confidence = clamp100 x :=
    ⟨_, rfl⟩
  rw [hx]
  exact clamp100_bounds x

/-! ## Claim C5: location confidence adjustment -/

/-- `Math.round` of a nonnegative number is nonnegative. -/
theorem jsRound_nonneg (q : ℚ) (h : 0 ≤ q) : 0 ≤ jsRound q := by
  unfold jsRound
  exact Int.le_floor.mpr (by push_cast; linarith)

/-- `Math.round q ≤ z` whenever `q ≤ z`. -/
theorem jsRound_le (q : ℚ) (z : ℤ) (h : q ≤ (z : ℚ)) : jsRound q ≤ z := by
  unfold jsRound
  have : ⌊q + 1/2⌋ < z + 1 := by
    rw [Int.floor_lt]
    push_cast
    linarith
  omega

/-- C5: `getLocationConfidenceAdjustment` returns 0 with no memory or zero
total events, `−round(falseRatio·10)` below 3 total events,
`−round(falseRatio·30)` at ≥ 3 total events; the result is always in
`[-30, 0]`, and a cell with 8 false alarms and 2 true alarms yields −24. -/
theorem c5_location_adjustment (st : MemStore) (lat lng : ℚ) :
    (st (getLocationCellId lat lng) = none →
      getLocationConfidenceAdjustment st lat lng = 0) ∧
    (∀ m, st (getLocationCellId lat lng) = some m →
      (m.falseAlarmCount + m.trueAlarmCount = 0 →
        getLocationConfidenceAdjustment st lat lng = 0) ∧
      (0 < m.falseAlarmCount + m.trueAlarmCount →
        m.falseAlarmCount + m.trueAlarmCount < 3 →
        getLocationConfidenceAdjustment st lat lng =
          -(jsRound ((m.falseAlarmCount : ℚ) /
              ((m.falseAlarmCount + m.trueAlarmCount : ℕ) : ℚ) * 10))) ∧
      (3 ≤ m.falseAlarmCount + m.trueAlarmCount →
        getLocationConfidenceAdjustment st lat lng =
          -(jsRound ((m.falseAlarmCount : ℚ) /
              ((m.falseAlarmCount + m.trueAlarmCount : ℕ) : ℚ) * 30))) ∧
      (m.falseAlarmCount = 8 → m.trueAlarmCount = 2 →
        getLocationConfidenceAdjustment st lat lng = -24)) ∧
    (-30 ≤ getLocationConfidenceAdjustment st lat lng ∧
      getLocationConfidenceAdjustment st lat lng ≤ 0) := by
  unfold getLocationConfidenceAdjustment
  cases h : st (getLocationCellId lat lng) with
  | none =>
    refine ⟨fun _ => rfl, fun m hm => by simp_all, by norm_num⟩
  | some m =>
    have ratio_bounds : m.falseAlarmCount + m.trueAlarmCount ≠ 0 →
        0 ≤ (m.falseAlarmCount : ℚ) / ((m.falseAlarmCount + m.trueAlarmCount : ℕ) : ℚ) ∧
        (m.falseAlarmCount : ℚ) / ((m.falseAlarmCount + m.trueAlarmCount : ℕ) : ℚ) ≤ 1 := by
      intro htot
      have hpos : (0 : ℚ) < ((m.falseAlarmCount + m.trueAlarmCount : ℕ) : ℚ) := by
        exact_mod_cast Nat.pos_of_ne_zero htot
      constructor
      · exact div_nonneg (Nat.cast_nonneg _) (le_of_lt hpos)
      · rw [div_le_one hpos]
        exact_mod_cast Nat.le_add_right m.falseAlarmCount m.trueAlarmCount
    refine ⟨fun hnone => by simp_all, fun m' hm' => ?_, ?_⟩
    · obtain rfl : m = m' := by simp_all
      refine ⟨fun h0 => by simp [h0], fun hpos h3 => ?_, fun h3 => ?_, fun h8 h2 => ?_⟩
      · simp only []
        rw [if_neg (by omega), if_pos (by omega)]
      · simp only []
        rw [if_neg (by omega), if_neg (by omega)]
      · simp only []
        rw [if_neg (by omega), if_neg (by omega), h8, h2]
        norm_num [jsRound]
    · dsimp only
      by_cases h0 : m.falseAlarmCount + m.trueAlarmCount = 0
      · rw [if_pos h0]
        norm_num
      · obtain ⟨hr0, hr1⟩ := ratio_bounds h0
        set fr : ℚ :=
          (m.falseAlarmCount : ℚ) / ((m.falseAlarmCount + m.trueAlarmCount : ℕ) : ℚ) with hfr
        rw [if_neg h0]
        by_cases h3 : m.falseAlarmCount + m.trueAlarmCount < 3
        · rw [if_pos h3]
          have hub := jsRound_le (fr * 10) 10 (by push_cast; nlinarith)
          have hlb := jsRound_nonneg (fr * 10) (by nlinarith)
          omega
        · rw [if_neg h3]
          have hub := jsRound_le (fr * 30) 30 (by push_cast; nlinarith)
          have hlb := jsRound_nonneg (fr * 30) (by nlinarith)
          omega

/-- Witness for C5: a store holding a cell with 8 false alarms and 2 true
alarms yields adjustment −24 there. -/
theorem c5_location_adjustment_witness :
    getLocationConfidenceAdjustment
      (fun _ => some
        { cellId := (0, 0), falseAlarmCount := 8, trueAlarmCount := 2
          lastTriggered := 0, sensorSignature := none, synced := true }) 0 0 = -24 := by
  have h := (c5_location_adjustment
      (fun _ => some
        { cellId := (0, 0), falseAlarmCount := 8, trueAlarmCount := 2
          lastTriggered := 0, sensorSignature := none, synced := true }) 0 0).2.1
      { cellId := (0, 0), falseAlarmCount := 8, trueAlarmCount := 2
        lastTriggered := 0, sensorSignature := none, synced := true }
  exact (h rfl).2.2.2 rfl rfl

/-! ## Claim C6: counters only grow -/

/-- One merge step keeps every existing cell's counters at least as large. -/
theorem mergeRow_counts_mono (st : MemStore) (row : CloudRow) (k : ℤ × ℤ)
    (m : LocationMemory) (h : st k = some m) :
    ∃ m', mergeRow st row k = some m' ∧
      m.falseAlarmCount ≤ m'.falseAlarmCount ∧ m.trueAlarmCount ≤ m'.trueAlarmCount := by
  by_cases hk : k = row.cellId
  · subst hk
    have hval : mergeRow st row row.cellId = some
        { cellId := row.cellId
          falseAlarmCount := max m.falseAlarmCount (row.falseAlarmCount.getD 0)
          trueAlarmCount := max m.trueAlarmCount (row.trueAlarmCount.getD 0)
          lastTriggered := if m.lastTriggered = 0 then row.updatedAt else m.lastTriggered
          sensorSignature :=
            match row.sensorSignature with
            | some s => some s
            | none => m.sensorSignature
          synced := true } := by
      simp [mergeRow, setMem, h]
    exact ⟨_, hval, le_max_left _ _, le_max_left _ _⟩
  · exact ⟨m, by simp [mergeRow, setMem, hk, h], le_refl _, le_refl _⟩

/-- The whole cloud-merge loop keeps counters at least as large. -/
theorem loadMemoriesFromCloud_counts_mono (rows : List CloudRow) :
    ∀ (st : MemStore) (k : ℤ × ℤ) (m : LocationMemory), st k = some m →
      ∃ m', loadMemoriesFromCloud rows st k = some m' ∧
        m.falseAlarmCount ≤ m'.falseAlarmCount ∧ m.trueAlarmCount ≤ m'.trueAlarmCount := by
  induction rows with
  | nil => exact fun st k m h => ⟨m, h, le_refl _, le_refl _⟩
  | cons row rest ih =>
    intro st k m h
    obtain ⟨m₁, h₁, hf₁, ht₁⟩ := mergeRow_counts_mono st row k m h
    obtain ⟨m', h', hf', ht'⟩ := ih (mergeRow st row) k m₁ h₁
    exact ⟨m', h', le_trans hf₁ hf', le_trans ht₁ ht'⟩

/-- One store operation keeps every existing cell's counters at least as
large. -/
theorem applyMemOp_counts_mono (st : MemStore) (op : MemOp) (k : ℤ × ℤ)
    (m : LocationMemory) (h : st k = some m) :
    ∃ m', applyMemOp st op k = some m' ∧
      m.falseAlarmCount ≤ m'.falseAlarmCount ∧ m.trueAlarmCount ≤ m'.trueAlarmCount := by
  cases op with
  | falseAlarm lat lng sd now =>
    by_cases hk : k = getLocationCellId lat lng
    · subst hk
      have hval : applyMemOp st (MemOp.falseAlarm lat lng sd now)
          (getLocationCellId lat lng) = some
          { cellId := getLocationCellId lat lng
            falseAlarmCount := m.falseAlarmCount + 1
            trueAlarmCount := m.trueAlarmCount
            lastTriggered := now
            sensorSignature :=
              match sd with
              | some s => some (updateSensorSignature m.sensorSignature s)
              | none => m.sensorSignature
            synced := false } := by
        simp [applyMemOp, recordFalseAlarm, setMem, h]
      exact ⟨_, hval, Nat.le_succ _, le_refl _⟩
    · exact ⟨m, by simp [applyMemOp, recordFalseAlarm, setMem, hk, h], le_refl _, le_refl _⟩
  | trueAlert lat lng sd now =>
    by_cases hk : k = getLocationCellId lat lng
    · subst hk
      have hval : applyMemOp st (MemOp.trueAlert lat lng sd now)
          (getLocationCellId lat lng) = some
          { cellId := getLocationCellId lat lng
            falseAlarmCount := m.falseAlarmCount
            trueAlarmCount := m.trueAlarmCount + 1
            lastTriggered := now
            sensorSignature := m.sensorSignature
            synced := false } := by
        simp [applyMemOp, recordTrueAlert, setMem, h]
      exact ⟨_, hval, le_refl _, Nat.le_succ _⟩
    · exact ⟨m, by simp [applyMemOp, recordTrueAlert, setMem, hk, h], le_refl _, le_refl _⟩
  | load rows => exact loadMemoriesFromCloud_counts_mono rows st k m h

/-- C6: `recordFalseAlarm` increments `falseAlarmCount` by exactly 1 and
leaves `trueAlarmCount` unchanged, `recordTrueAlert` increments
`trueAlarmCount` by exactly 1 and leaves `falseAlarmCount` unchanged, and
across any sequence of record and cloud-merge operations the counters of an
existing cell never decrease. -/
theorem c6_counters_monotone :
    (∀ (st : MemStore) (lat lng : ℚ) (sd : Option SensorData) (now : ℤ),
      (recordFalseAlarm lat lng sd now st (getLocationCellId lat lng)).map
          (fun m => (m.falseAlarmCount, m.trueAlarmCount)) =
        some (((st (getLocationCellId lat lng)).map (·.falseAlarmCount)).getD 0 + 1,
              ((st (getLocationCellId lat lng)).map (·.trueAlarmCount)).getD 0)) ∧
    (∀ (st : MemStore) (lat lng : ℚ) (sd : Option SensorData) (now : ℤ),
      (recordTrueAlert lat lng sd now st (getLocationCellId lat lng)).map
          (fun m => (m.falseAlarmCount, m.trueAlarmCount)) =
        some (((st (getLocationCellId lat lng)).map (·.falseAlarmCount)).getD 0,
              ((st (getLocationCellId lat lng)).map (·.trueAlarmCount)).getD 0 + 1)) ∧
    (∀ (ops : List MemOp) (st : MemStore) (k : ℤ × ℤ) (m : LocationMemory),
      st k = some m →
      ∃ m', applyMemOps st ops k = some m' ∧
        m.falseAlarmCount ≤ m'.falseAlarmCount ∧
        m.trueAlarmCount ≤ m'.trueAlarmCount) := by
  refine ⟨?_, ?_, ?_⟩
  · intro st lat lng sd now
    simp [recordFalseAlarm, setMem]
  · intro st lat lng sd now
    simp [recordTrueAlert, setMem]
  · intro ops
    induction ops with
    | nil => exact fun st k m h => ⟨m, h, le_refl _, le_refl _⟩
    | cons op rest ih =>
      intro st k m h
      obtain ⟨m₁, h₁, hf₁, ht₁⟩ := applyMemOp_counts_mono st op k m h
      obtain ⟨m', h', hf', ht'⟩ := ih (applyMemOp st op) k m₁ h₁
      exact ⟨m', h', le_trans hf₁ hf', le_trans ht₁ ht'⟩

/-- Witness for C6: a concrete cell with counters (3, 1) survives a true
alert followed by a cloud merge with both counters non-decreasing. -/
theorem c6_counters_monotone_witness :
    ∃ m', applyMemOps
        (fun _ => some
          { cellId := (0, 0), falseAlarmCount := 3, trueAlarmCount := 1
            lastTriggered := 0, sensorSignature := none, synced := false })
        [MemOp.trueAlert 1 2 none 7,
         MemOp.load [{ cellId := (0, 0), falseAlarmCount := some 5, trueAlarmCount := none
                       updatedAt := 9, sensorSignature := none }]]
        (0, 0) = some m' ∧
      3 ≤ m'.falseAlarmCount ∧ 1 ≤ m'.trueAlarmCount :=
  c6_counters_monotone.2.2
    [MemOp.trueAlert 1 2 none 7,
     MemOp.load [{ cellId := (0, 0), falseAlarmCount := some 5, trueAlarmCount := none
                   updatedAt := 9, sensorSignature := none }]]
    (fun _ => some
      { cellId := (0, 0), falseAlarmCount := 3, trueAlarmCount := 1
        lastTriggered := 0, sensorSignature := none, synced := false })
    (0, 0)
    { cellId := (0, 0), falseAlarmCount := 3, trueAlarmCount := 1
      lastTriggered := 0, sensorSignature := none, synced := false }
    rfl

/-! ## Claim C7: 60-second same-type debounce -/

/-- The early-return path of `triggerRiskEvent`: a same-type event within the
60 s window makes the call a complete no-op. -/
theorem triggerRiskEvent_dropped (now : ℤ) (event : RiskEvent) (st : RideState)
    (h : ∃ e ∈ st.riskEvents, e.type = event.type ∧ now - e.timestamp < 60000) :
    triggerRiskEvent now event st = (st, TriggerEffects.none) := by
  obtain ⟨x, hx, hsat⟩ := h
  cases hfind : st.riskEvents.find?
      (fun e => decide (e.type = event.type ∧ now - e.timestamp < 60000)) with
  | none => exact absurd (decide_eq_true hsat) (List.find?_eq_none.mp hfind x hx)
  | some y =>
    unfold triggerRiskEvent
    rw [hfind]

/-- The recording path of `triggerRiskEvent`: with no recent same-type event
in the history, the event is appended and all side effects fire. -/
theorem triggerRiskEvent_recorded (now : ℤ) (event : RiskEvent) (st : RideState)
    (h : ∀ e ∈ st.riskEvents, ¬(e.type = event.type ∧ now - e.timestamp < 60000)) :
    triggerRiskEvent now event st =
      ({ st with riskEvents := st.riskEvents ++ [event] },
       { spoke := true
         vibratedEmergency := event.severity = Severity.critical
         vibratedAlert := ¬(event.severity = Severity.critical)
         scheduledAutoEmergency :=
           decide (event.severity = Severity.critical) &&
           decide (event.type = RiskType.fall_detected)
         handedOff := true }) := by
  have hfind : st.riskEvents.find?
      (fun e => decide (e.type = event.type ∧ now - e.timestamp < 60000)) = none := by
    rw [List.find?_eq_none]
    intro e he
    simpa using h e he
  unfold triggerRiskEvent
  rw [hfind]

/-- C7: for every event type (fall detection included), if the rolling
history is clean of recent same-type events, the first trigger appends its
event, notifies and hands off; a second same-type event arriving within
60 000 ms of the first one's timestamp is dropped entirely — state unchanged,
no notification, no hand-off — so two raises within 60 s leave exactly one
recorded event. -/
theorem c7_debounce_same_type (now₁ now₂ : ℤ) (e₁ e₂ : RiskEvent) (st : RideState)
    (hclean : ∀ e ∈ st.riskEvents, ¬(e.type = e₁.type ∧ now₁ - e.timestamp < 60000))
    (htype : e₂.type = e₁.type) (hwin : now₂ - e₁.timestamp < 60000) :
    (triggerRiskEvent now₁ e₁ st).1.riskEvents = st.riskEvents ++ [e₁] ∧
    (triggerRiskEvent now₁ e₁ st).2.handedOff = true ∧
    (triggerRiskEvent now₁ e₁ st).2.spoke = true ∧
    triggerRiskEvent now₂ e₂ (triggerRiskEvent now₁ e₁ st).1 =
      ((triggerRiskEvent now₁ e₁ st).1, TriggerEffects.none) := by
  have h₁ := triggerRiskEvent_recorded now₁ e₁ st hclean
  have hmem : e₁ ∈ (triggerRiskEvent now₁ e₁ st).1.riskEvents := by
    rw [h₁]
    exact List.mem_append_right _ (List.mem_singleton.mpr rfl)
  exact ⟨by rw [h₁], by rw [h₁], by rw [h₁],
    triggerRiskEvent_dropped now₂ e₂ _ ⟨e₁, hmem, htype.symm, hwin⟩⟩

/-- Witness for C7: a concrete fall event recorded at t = 1000 into an empty
history suppresses a second fall 59 s later. -/
theorem c7_debounce_same_type_witness :
    (triggerRiskEvent 1000
        { type := RiskType.fall_detected, severity := Severity.critical, timestamp := 1000 }
        { isActive := true, startTime := some 0, lastPosition := none, lastSpeed := 0
          idleTime := 0, distanceTraveled := 0, riskEvents := [] }).1.riskEvents =
      [{ type := RiskType.fall_detected, severity := Severity.critical, timestamp := 1000 }] ∧
    triggerRiskEvent 60999
        { type := RiskType.fall_detected, severity := Severity.critical, timestamp := 60999 }
        (triggerRiskEvent 1000
          { type := RiskType.fall_detected, severity := Severity.critical, timestamp := 1000 }
          { isActive := true, startTime := some 0, lastPosition := none, lastSpeed := 0
            idleTime := 0, distanceTraveled := 0, riskEvents := [] }).1 =
      ((triggerRiskEvent 1000
          { type := RiskType.fall_detected, severity := Severity.critical, timestamp := 1000 }
          { isActive := true, startTime := some 0, lastPosition := none, lastSpeed := 0
            idleTime := 0, distanceTraveled := 0, riskEvents := [] }).1,
        TriggerEffects.none) := by
  have h := c7_debounce_same_type 1000 60999
      { type := RiskType.fall_detected, severity := Severity.critical, timestamp := 1000 }
      { type := RiskType.fall_detected, severity := Severity.critical, timestamp := 60999 }
      { isActive := true, startTime := some 0, lastPosition := none, lastSpeed := 0
        idleTime := 0, distanceTraveled := 0, riskEvents := [] }
      (by intro e he; simp at he) rfl (by norm_num)
  exact ⟨h.1, h.2.2.2⟩

/-! ## Claim C9: heat index scenarios -/

/-- Counterexample to C9 as stated: at exactly 27 °C the below-threshold
shortcut (`tempC < 27`) does NOT apply, so with 80 % humidity the function
returns 29.7, not its input 27. -/
theorem c9_heat_index_at_27_counterexample :
    calculateHeatIndex 27 80 ≠ 27 := by
  norm_num [calculateHeatIndex, jsRound]

/-- C9 (amended): the heat-index function returns its input unchanged for
temperatures strictly below 27 °C, and at 40 °C with 80 % humidity it
returns a value strictly greater than 40 (in fact 82.5). -/
theorem c9_heat_index_amended :
    (∀ tempC humidity : ℚ, tempC < 27 → calculateHeatIndex tempC humidity = tempC) ∧
    40 < calculateHeatIndex 40 80 := by
  constructor
  · intro tempC humidity h
    simp [calculateHeatIndex, h]
  · norm_num [calculateHeatIndex, jsRound]

/-- Witness for C9 (amended): 26.9 °C is returned unchanged, and the 40 °C /
80 % case exceeds 40. -/
theorem c9_heat_index_amended_witness :
    calculateHeatIndex (269/10) 50 = 269/10 ∧ 40 < calculateHeatIndex 40 80 :=
  ⟨c9_heat_index_amended.1 (269/10) 50 (by norm_num), c9_heat_index_amended.2⟩

/-- C1 (code bug): in the scenario of the claim — `start` with
`timeoutMs = 5000`, no transcript classified, no `cancel` before the
deadline, timer fires at `t₀ + 5000` — the `onResult` callback is invoked
ZERO times, not exactly once: `handleResult` calls `stop()`, which sets
`this.options = null`, before it evaluates `this.options?.onResult`, so the
timeout outcome is never delivered.  A later `stop()` is indeed a no-op, but
the delivery the claim requires never happens. -/
theorem c1_timeout_never_delivered (t₀ : ℤ) :
    countOnResult ((listenerStart t₀ freshListener).2 ++
      (listenerTimeoutFires (t₀ + 5000) (listenerStart t₀ freshListener).1).2) = 0 ∧
    listenerStop (listenerTimeoutFires (t₀ + 5000) (listenerStart t₀ freshListener).1).1 =
      ((listenerTimeoutFires (t₀ + 5000) (listenerStart t₀ freshListener).1).1, []) := by
  constructor
  · simp [listenerStart, listenerTimeoutFires, listenerHandleResult, listenerStop,
      freshListener, countOnResult]
  · simp [listenerStart, listenerTimeoutFires, listenerHandleResult, listenerStop,
      freshListener]

/-! ## Levenshtein distance lemmas (claim C8) -/

/-- Distance from the empty string is the length. -/
theorem lev_nil_left (b : List Char) : lev [] b = b.length := rfl

/-- Distance to the empty string is the length. -/
theorem lev_nil_right (a : List Char) : lev a [] = a.length := by
  cases a <;> rfl

/-- The cons-cons unfolding of `lev` — exactly the matrix recurrence of the
source. -/
theorem lev_cons_cons (x : Char) (xs : List Char) (y : Char) (ys : List Char) :
    lev (x :: xs) (y :: ys) =
      if x = y then lev xs ys
      else 1 + min (lev xs ys) (min (lev (x :: xs) ys) (lev xs (y :: ys))) := rfl

/-- Distance of a string to itself is zero. -/
theorem lev_self : ∀ a : List Char, lev a a = 0
  | [] => rfl
  | x :: xs => by rw [lev_cons_cons, if_pos rfl, lev_self xs]

/-- Zero distance forces equality. -/
theorem lev_eq_zero : ∀ a b : List Char, lev a b = 0 → a = b
  | [], b, h => by
    cases b with
    | nil => rfl
    | cons y ys => simp [lev_nil_left] at h
  | x :: xs, [], h => by simp [lev_nil_right] at h
  | x :: xs, y :: ys, h => by
    rw [lev_cons_cons] at h
    by_cases hxy : x = y
    · rw [if_pos hxy] at h
      rw [hxy, lev_eq_zero xs ys h]
    · rw [if_neg hxy] at h
      omega

/-- A shared prefix does not change the distance. -/
theorem lev_append_same : ∀ (p a b : List Char), lev (p ++ a) (p ++ b) = lev a b
  | [], a, b => rfl
  | q :: p, a, b => by
    rw [List.cons_append, List.cons_append, lev_cons_cons, if_pos rfl,
      lev_append_same p a b]

/-- Deleting a leading character is one edit. -/
theorem lev_cons_left_self : ∀ (a : List Char) (c : Char), lev (c :: a) a ≤ 1
  | [], c => by simp [lev_nil_right]
  | x :: xs, c => by
    rw [lev_cons_cons]
    by_cases hcx : c = x
    · rw [if_pos hcx]
      exact lev_cons_left_self xs x
    · rw [if_neg hcx, lev_self]
      simp

/-- Inserting a leading character is one edit. -/
theorem lev_cons_right_self : ∀ (a : List Char) (c : Char), lev a (c :: a) ≤ 1
  | [], c => by simp [lev_nil_left]
  | x :: xs, c => by
    rw [lev_cons_cons]
    by_cases hxc : x = c
    · rw [if_pos hxc]
      exact lev_cons_right_self xs x
    · rw [if_neg hxc, lev_self]
      simp

/-- `Near` is reflexive. -/
theorem near_refl (a : List Char) : Near a a := Or.inl rfl

/-- `Near` is preserved by prepending a common character. -/
theorem near_cons (c : Char) {a b : List Char} (h : Near a b) :
    Near (c :: a) (c :: b) := by
  rcases h with rfl | ⟨p, x, s, rfl, rfl⟩ | ⟨p, x, s, rfl, rfl⟩ | ⟨p, x, d, s, rfl, rfl⟩
  · exact Or.inl rfl
  · exact Or.inr (Or.inl ⟨c :: p, x, s, rfl, rfl⟩)
  · exact Or.inr (Or.inr (Or.inl ⟨c :: p, x, s, rfl, rfl⟩))
  · exact Or.inr (Or.inr (Or.inr ⟨c :: p, x, d, s, rfl, rfl⟩))

/-- Distance at most one means a single edit (completeness direction). -/
theorem near_of_lev_le_one : ∀ a b : List Char, lev a b ≤ 1 → Near a b
  | [], b, h => by
    cases b with
    | nil => exact near_refl []
    | cons y ys =>
      have hlen : ys.length = 0 := by simpa [lev_nil_left] using h
      obtain rfl := List.length_eq_zero.mp hlen
      exact Or.inr (Or.inr (Or.inl ⟨[], y, [], rfl, rfl⟩))
  | x :: xs, [], h => by
    have hlen : xs.length = 0 := by simpa [lev_nil_right] using h
    obtain rfl := List.length_eq_zero.mp hlen
    exact Or.inr (Or.inl ⟨[], x, [], rfl, rfl⟩)
  | x :: xs, y :: ys, h => by
    rw [lev_cons_cons] at h
    by_cases hxy : x = y
    · rw [if_pos hxy] at h
      subst hxy
      exact near_cons x (near_of_lev_le_one xs ys h)
    · rw [if_neg hxy] at h
      have hmin : min (lev xs ys) (min (lev (x :: xs) ys) (lev xs (y :: ys))) = 0 := by
        omega
      rcases Nat.min_eq_zero_iff.mp hmin with h1 | h2
      · have hxy2 := lev_eq_zero xs ys h1
        subst hxy2
        exact Or.inr (Or.inr (Or.inr ⟨[], x, y, xs, rfl, rfl⟩))
      · rcases Nat.min_eq_zero_iff.mp h2 with h3 | h4
        · have h5 := lev_eq_zero _ _ h3
          subst h5
          exact Or.inr (Or.inr (Or.inl ⟨[], y, x :: xs, rfl, rfl⟩))
        · have h6 := lev_eq_zero _ _ h4
          subst h6
          exact Or.inr (Or.inl ⟨[], x, y :: ys, rfl, rfl⟩)

/-- A single edit costs at most one (soundness direction). -/
theorem lev_le_one_of_near {a b : List Char} (h : Near a b) : lev a b ≤ 1 := by
  rcases h with rfl | ⟨p, c, s, rfl, rfl⟩ | ⟨p, c, s, rfl, rfl⟩ | ⟨p, c, d, s, rfl, rfl⟩
  · simp [lev_self]
  · rw [lev_append_same]
    exact lev_cons_left_self s c
  · rw [lev_append_same]
    exact lev_cons_right_self s c
  · rw [lev_append_same, lev_cons_cons]
    by_cases hcd : c = d
    · rw [if_pos hcd, lev_self]
      omega
    · rw [if_neg hcd, lev_self]
      simp

/-- A single edit stays a single edit under a characterwise map. -/
theorem near_map (f : Char → Char) {a b : List Char} (h : Near a b) :
    Near (a.map f) (b.map f) := by
  rcases h with rfl | ⟨p, c, s, rfl, rfl⟩ | ⟨p, c, s, rfl, rfl⟩ | ⟨p, c, d, s, rfl, rfl⟩
  · exact near_refl _
  · exact Or.inr (Or.inl ⟨p.map f, f c, s.map f, by simp, by simp⟩)
  · exact Or.inr (Or.inr (Or.inl ⟨p.map f, f c, s.map f, by simp, by simp⟩))
  · exact Or.inr (Or.inr (Or.inr ⟨p.map f, f c, f d, s.map f, by simp, by simp⟩))

/-- A single edit stays a single edit under reversal. -/
theorem near_reverse {a b : List Char} (h : Near a b) :
    Near a.reverse b.reverse := by
  rcases h with rfl | ⟨p, c, s, rfl, rfl⟩ | ⟨p, c, s, rfl, rfl⟩ | ⟨p, c, d, s, rfl, rfl⟩
  · exact near_refl _
  · exact Or.inr (Or.inl ⟨s.reverse, c, p.reverse, by simp, by simp⟩)
  · exact Or.inr (Or.inr (Or.inl ⟨s.reverse, c, p.reverse, by simp, by simp⟩))
  · exact Or.inr (Or.inr (Or.inr ⟨s.reverse, c, d, p.reverse, by simp, by simp⟩))

/-! ## Trimming preserves a one-edit distance (claim C8) -/

/-- `trimLeft` drops a whitespace head. -/
theorem trimLeft_cons_ws {c : Char} {l : List Char} (h : c.isWhitespace = true) :
    trimLeft (c :: l) = trimLeft l := by
  simp [trimLeft, List.dropWhile_cons, h]

/-- `trimLeft` keeps a non-whitespace head. -/
theorem trimLeft_cons_not_ws {c : Char} {l : List Char} (h : c.isWhitespace = false) :
    trimLeft (c :: l) = c :: l := by
  simp [trimLeft, List.dropWhile_cons, h]

/-- If the keyword's first two characters are non-whitespace, stripping
leading whitespace from a one-edit neighbour keeps it a one-edit
neighbour. -/
theorem trimLeft_near {kw y : List Char} (hk : frontOk kw = true) (h : Near y kw) :
    Near (trimLeft y) kw := by
  cases kw with
  | nil => simp [frontOk] at hk
  | cons k1 rest =>
    cases rest with
    | nil => simp [frontOk] at hk
    | cons k2 kr =>
      obtain ⟨hk1, hk2⟩ : k1.isWhitespace = false ∧ k2.isWhitespace = false := by
        simpa [frontOk, Bool.and_eq_true, Bool.not_eq_true'] using hk
      have horig := h
      rcases h with rfl | ⟨p, c, s, rfl, hb⟩ | ⟨p, c, s, rfl, hb⟩ | ⟨p, c, d, s, rfl, hb⟩
      · rw [trimLeft_cons_not_ws hk1]
        exact horig
      · -- y = p ++ c :: s has one extra character
        cases p with
        | nil =>
          simp only [List.nil_append] at hb ⊢
          subst hb
          cases hcw : c.isWhitespace with
          | true =>
            rw [trimLeft_cons_ws hcw, trimLeft_cons_not_ws hk1]
            exact near_refl _
          | false =>
            rw [trimLeft_cons_not_ws hcw]
            exact horig
        | cons p1 pr =>
          rw [List.cons_append] at hb
          injection hb with hb1 hb2
          subst hb1
          rw [List.cons_append, trimLeft_cons_not_ws hk1]
          exact horig
      · -- y = p ++ s is missing one character
        cases p with
        | nil =>
          simp only [List.nil_append] at hb ⊢
          injection hb with hb1 hb2
          subst hb2
          rw [trimLeft_cons_not_ws hk2]
          exact horig
        | cons p1 pr =>
          rw [List.cons_append] at hb
          injection hb with hb1 hb2
          subst hb1
          rw [List.cons_append, trimLeft_cons_not_ws hk1]
          exact horig
      · -- y = p ++ c :: s with one substitution
        cases p with
        | nil =>
          simp only [List.nil_append] at hb ⊢
          injection hb with hb1 hb2
          subst hb2
          cases hcw : c.isWhitespace with
          | true =>
            rw [trimLeft_cons_ws hcw, trimLeft_cons_not_ws hk2]
            exact Or.inr (Or.inr (Or.inl ⟨[], k1, k2 :: kr, rfl, rfl⟩))
          | false =>
            rw [trimLeft_cons_not_ws hcw]
            exact horig
        | cons p1 pr =>
          rw [List.cons_append] at hb
          injection hb with hb1 hb2
          subst hb1
          rw [List.cons_append, trimLeft_cons_not_ws hk1]
          exact horig

/-- The mirror statement: with the keyword's last two characters
non-whitespace, stripping trailing whitespace keeps a one-edit neighbour. -/
theorem trimRight_near {kw y : List Char} (hk : backOk kw = true) (h : Near y kw) :
    Near (trimRight y) kw := by
  have h' : Near y.reverse kw.reverse := near_reverse h
  have h2 : Near (trimLeft y.reverse) kw.reverse := trimLeft_near hk h'
  have h3 := near_reverse h2
  rw [List.reverse_reverse] at h3
  exact h3

/-- With non-whitespace margins on the keyword, `trim` keeps a one-edit
neighbour. -/
theorem trim_near {kw y : List Char} (hf : frontOk kw = true) (hb : backOk kw = true)
    (h : Near y kw) : Near (trim y) kw :=
  trimRight_near hb (trimLeft_near hf h)

/-! ## Claim C8: fuzzy-match distance boundary -/

/-- Counterexample to C8 as stated: `"danger"` is a lexicon keyword of
length > 4 and the input `"nonger"` is at Levenshtein distance exactly 2
from it, yet `fuzzyMatch` accepts `"nonger"` against the danger lexicon —
the short keyword `"no"` (length ≤ 4) matches by substring. -/
theorem c8_distance_two_counterexample :
    "danger".toList ∈ dangerEn ∧ 4 < "danger".toList.length ∧
    lev "nonger".toList "danger".toList = 2 ∧
    fuzzyMatch "nonger".toList dangerEn = true := by decide

/-- C8 (amended): for every keyword of length > 4 in the lexicons, any input
string at Levenshtein distance exactly 1 from that keyword is accepted by
`fuzzyMatch` against that keyword's list; an input at distance exactly 2
from that keyword is rejected by that keyword's own distance-≤ 1 rule but
can still be accepted through another keyword of the same list (for example
by the substring rule for short keywords, as the counterexample shows). -/
theorem c8_distance_one_matches (L : List (List Char)) (hL : L ∈ ALL_LEXICONS)
    (kw : List Char) (hkw : kw ∈ L) (hlen : 4 < kw.length)
    (input : List Char) (hdist : lev input kw = 1) :
    fuzzyMatch input L = true := by
  have hkwAll : kw ∈ okEn ++ okHi ++ okTa ++ dangerEn ++ dangerHi ++ dangerTa := by
    simp only [ALL_LEXICONS, List.mem_cons, List.not_mem_nil, or_false] at hL
    rcases hL with rfl | rfl | rfl | rfl | rfl | rfl <;>
      simp only [List.mem_append] <;> tauto
  have hprops : kw.map Char.toLower = kw ∧ frontOk kw = true ∧ backOk kw = true := by
    have hall : ∀ k ∈ okEn ++ okHi ++ okTa ++ dangerEn ++ dangerHi ++ dangerTa,
        4 < k.length →
        (k.map Char.toLower = k ∧ frontOk k = true ∧ backOk k = true) := by decide
    exact hall kw hkwAll hlen
  obtain ⟨hlow, hfront, hback⟩ := hprops
  have hnear : Near input kw := near_of_lev_le_one input kw (le_of_eq hdist)
  have hnear2 : Near (input.map Char.toLower) kw := by
    have hm := near_map Char.toLower hnear
    rwa [hlow] at hm
  have hlev : lev (normalizeInput input) kw ≤ 1 :=
    lev_le_one_of_near (trim_near hfront hback hnear2)
  unfold fuzzyMatch
  rw [List.any_eq_true]
  refine ⟨kw, hkw, ?_⟩
  have h4 : decide (4 < kw.length) = true := decide_eq_true hlen
  have hd : decide (lev (normalizeInput input) kw ≤ 1) = true := decide_eq_true hlev
  simp [h4, hd]

/-- Witness for C8 (amended): `"dangez"` is at distance exactly 1 from the
keyword `"danger"` and is accepted against the English danger lexicon. -/
theorem c8_distance_one_matches_witness :
    fuzzyMatch "dangez".toList dangerEn = true :=
  c8_distance_one_matches dangerEn (by simp [ALL_LEXICONS]) "danger".toList
    (by decide) (by decide) "dangez".toList (by decide)

/-! ## Claim C10: a contained "no" always classifies as danger -/

/-- C10: with the default language priority starting at `en-IN`, any input
whose lowercased, trimmed form contains the two-character danger keyword
`"no"` as a substring classifies as danger — short keywords (≤ 4 chars)
match by substring and the danger lexicon is checked before the ok lexicon,
so this wins even when the input also matches an ok keyword exactly. -/
theorem c10_substring_no_forces_danger (text : List Char)
    (h : containsSub (normalizeInput text) "no".toList = true) :
    classifyInput text "en-IN" = some OkDanger.danger := by
  have hfm : fuzzyMatch text (DANGER_KEYWORDS "en-IN") = true := by
    have hmem : "no".toList ∈ DANGER_KEYWORDS "en-IN" := by decide
    unfold fuzzyMatch
    rw [List.any_eq_true]
    refine ⟨"no".toList, hmem, ?_⟩
    simp only [Bool.or_eq_true, Bool.and_eq_true, decide_eq_true_eq, beq_iff_eq,
      List.any_eq_true]
    exact Or.inl (Or.inl (Or.inr ⟨by decide, h⟩))
  unfold classifyInput
  simp only [classifyScan]
  rw [if_pos hfm]

/-- Witness for C10: the input `"okay now"` contains `"no"` (inside "now")
and exactly matches the ok keyword `"okay"` as a whole word, yet classifies
as danger. -/
theorem c10_substring_no_forces_danger_witness :
    classifyInput "okay now".toList "en-IN" = some OkDanger.danger :=
  c10_substring_no_forces_danger "okay now".toList (by decide)
